import Mathlib

/-!
Shallow embedding of the flake-checker core (lock-document parsing,
reference resolution, root projection, fixed-rule evaluation and
expression-mode evaluation) together with theorems settling the
specification claims.

Maps (Rust HashMap) are embedded as association lists; the Rust
HashMap index operation, which panics on an absent key, is embedded
as an Outcome-valued lookup with an explicit panic result.  The Rust
resolver recurses without a depth guard; the embedding threads a fuel
parameter, and fuel exhaustion stands for the stack-overflow abort.
-/

namespace FlakeChecker

/-- A serde_json value. -/
inductive Json where
  | null : Json
  | bool (b : Bool) : Json
  | num (n : Int) : Json
  | str (s : String) : Json
  | arr (elems : List Json) : Json
  | obj (fields : List (String × Json)) : Json

/-- serde_json Value::get with a string key: field lookup on an object,
None on every other value. -/
def Json.get : Json → String → Option Json
  | Json.obj fields, key => (fields.find? (fun p => p.1 == key)).map (fun p => p.2)
  | _, _ => none

namespace PFL

/-- Input enum of parse-flake-lock: a node input reference, either a
single name or an ordered chain of names (serde untagged). -/
inductive Input where
  | str (s : String) : Input
  | list (names : List String) : Input

/-- RepoLocked of parse-flake-lock. -/
structure RepoLocked where
  last_modified : Int
  nar_hash : String
  owner : String
  repo : String
  rev : String
  node_type : String

/-- RepoOriginal of parse-flake-lock. -/
structure RepoOriginal where
  owner : String
  repo : String
  git_ref : Option String
  node_type : String

/-- RepoNode of parse-flake-lock. -/
structure RepoNode where
  flake : Option Bool
  inputs : Option (List (String × Input))
  locked : RepoLocked
  original : RepoOriginal

/-- IndirectOriginal of parse-flake-lock. -/
structure IndirectOriginal where
  id : String
  node_type : String

/-- IndirectNode of parse-flake-lock. -/
structure IndirectNode where
  locked : RepoLocked
  inputs : Option (List (String × Input))
  original : IndirectOriginal

/-- PathLocked of parse-flake-lock. -/
structure PathLocked where
  last_modified : Int
  nar_hash : String
  path : String
  node_type : String

/-- PathOriginal of parse-flake-lock. -/
structure PathOriginal where
  path : String
  git_ref : Option String
  node_type : String

/-- PathNode of parse-flake-lock. -/
structure PathNode where
  locked : PathLocked
  inputs : Option (List (String × Input))
  original : PathOriginal

/-- TarballLocked of parse-flake-lock.  The crate revision used by
condition.rs reads an optional last-modified timestamp off this record,
so the embedding carries it as an optional field. -/
structure TarballLocked where
  last_modified : Option Int
  nar_hash : String
  node_type : String
  url : String

/-- TarballOriginal of parse-flake-lock. -/
structure TarballOriginal where
  url : String
  node_type : String

/-- TarballNode of parse-flake-lock. -/
structure TarballNode where
  locked : TarballLocked
  inputs : Option (List (String × Input))
  original : TarballOriginal

/-- RootNode of parse-flake-lock: only an inputs mapping. -/
structure RootNode where
  inputs : List (String × Input)

/-- Node enum of parse-flake-lock (untagged; Fallthrough is the
catch-all carrying the raw JSON value). -/
inductive Node where
  | root (r : RootNode) : Node
  | repo (r : RepoNode) : Node
  | indirect (r : IndirectNode) : Node
  | path (r : PathNode) : Node
  | tarball (r : TarballNode) : Node
  | fallthrough (v : Json) : Node

/-- Node::variant of parse-flake-lock. -/
def Node.variant : Node → String
  | Node.root _ => "Root"
  | Node.repo _ => "Repo"
  | Node.indirect _ => "Indirect"
  | Node.path _ => "Path"
  | Node.tarball _ => "Tarball"
  | Node.fallthrough _ => "Fallthrough"

/-- FlakeLockParseError of parse-flake-lock (the de::Error::custom
failures raised inside deserialization surface as serde_json errors,
embedded by the json constructor). -/
inductive FlakeLockParseError where
  | invalid (msg : String) : FlakeLockParseError
  | notFound (msg : String) : FlakeLockParseError
  | json (msg : String) : FlakeLockParseError

/-- Result of running a fallible core operation: a value, a typed
error, or a Rust panic (HashMap index on an absent key, an
unreachable assertion, or a stack overflow). -/
inductive Outcome (α : Type) where
  | ok (a : α) : Outcome α
  | err (e : FlakeLockParseError) : Outcome α
  | panic (msg : String) : Outcome α

/-- Association-list lookup standing for HashMap::get. -/
def lookupNode (nodes : List (String × Node)) (key : String) : Option Node :=
  (nodes.find? (fun p => p.1 == key)).map (fun p => p.2)

/-- The HashMap index operation on the node table: panics when the key
is absent. -/
def indexNode (nodes : List (String × Node)) (key : String) : Outcome Node :=
  match lookupNode nodes key with
  | some node => Outcome.ok node
  | none => Outcome.panic "index panic: key not found in nodes"

/-- Association-list lookup standing for HashMap::get on an inputs map. -/
def lookupInput (inputs : List (String × Input)) (key : String) : Option Input :=
  (inputs.find? (fun p => p.1 == key)).map (fun p => p.2)

/-- Deserializing a single Input from a raw JSON value (untagged:
a string, or a list of strings). -/
def parseInput : Json → Except String Input
  | Json.str s => Except.ok (Input.str s)
  | Json.arr elems =>
    match elems.mapM (fun e => match e with | Json.str s => some s | _ => none) with
    | some names => Except.ok (Input.list names)
    | none => Except.error "data did not match any variant of untagged enum Input"
  | _ => Except.error "data did not match any variant of untagged enum Input"

/-- Deserializing an inputs mapping from the raw JSON value of a
Fallthrough node, as serde_json from_value at type
Option (HashMap String Input): null maps to none, an object maps to
some mapping when every value parses as an Input. -/
def parseInputsValue : Json → Except String (Option (List (String × Input)))
  | Json.null => Except.ok none
  | Json.obj fields =>
    match fields.mapM (fun p => match parseInput p.2 with
        | Except.ok i => some (p.1, i)
        | Except.error _ => none) with
    | some inputs => Except.ok (some inputs)
    | none => Except.error "invalid inputs value in fallthrough node"
  | _ => Except.error "invalid type for inputs of fallthrough node"

/-- The inputs mapping a node offers to the resolver loop: a direct
field for the typed variants, a dynamic extraction for Fallthrough
(absence of the inputs field means no mapping; a present but
ill-formed field is a typed JSON error). -/
def nodeInputs : Node → Outcome (Option (List (String × Input)))
  | Node.root _ => Outcome.ok none
  | Node.repo r => Outcome.ok r.inputs
  | Node.indirect r => Outcome.ok r.inputs
  | Node.path r => Outcome.ok r.inputs
  | Node.tarball r => Outcome.ok r.inputs
  | Node.fallthrough v =>
    match v.get "inputs" with
    | some inputsVal =>
      match parseInputsValue inputsVal with
      | Except.ok r => Outcome.ok r
      | Except.error m => Outcome.err (FlakeLockParseError.json m)
    | none => Outcome.ok none

/-- The for-loop of chase_input_node, with the recursive invocation
for a chain reference inlined (a recursive chase_input_node call is
exactly: pop the first name, index the node table, re-enter the
loop).  At each remaining hop, obtain the current node's inputs
mapping (a typed Invalid error when there is none), index it with the
hop name (a panic when absent), and follow the reference: a single
name re-enters the node table, a chain starts a nested resolution
from the node table and resumes the outer walk with its result.  The
Rust original carries no cycle guard and recurses unboundedly on
cyclic indirections; the fuel parameter bounds the resolution steps
of the embedding, and running out of fuel stands for the
stack-exhaustion abort. -/
def chaseLoop (nodes : List (String × Node)) (fuel : Nat) (node : Node)
    (inputs : List String) : Outcome Node :=
  match inputs with
  | [] => Outcome.ok node
  | input :: rest =>
    match fuel with
    | 0 => Outcome.panic "stack overflow"
    | Nat.succ fuel =>
    match nodeInputs node with
    | Outcome.err e => Outcome.err e
    | Outcome.panic m => Outcome.panic m
    | Outcome.ok none =>
      Outcome.err (FlakeLockParseError.invalid "lock node should have had some inputs but had none")
    | Outcome.ok (some node_inputs) =>
      match lookupInput node_inputs input with
      | none => Outcome.panic "index panic: key not found in node inputs"
      | some (Input.str s) =>
        match lookupNode nodes s with
        | none => Outcome.panic "index panic: key not found in nodes"
        | some next => chaseLoop nodes fuel next rest
      | some (Input.list keys) =>
        match keys with
        | [] => Outcome.panic "internal error: entered unreachable code: there should always be at least one input"
        | next_input :: keysRest =>
          match lookupNode nodes next_input with
          | none => Outcome.panic "index panic: key not found in nodes"
          | some chainStart =>
            match chaseLoop nodes fuel chainStart keysRest with
            | Outcome.ok next => chaseLoop nodes fuel next rest
            | Outcome.err e => Outcome.err e
            | Outcome.panic m => Outcome.panic m

/-- chase_input_node of parse-flake-lock: pop the first name (the
empty chain hits the unreachable assertion, a panic), index the node
table with it (a panic when absent), then walk the remaining hops
with chaseLoop. -/
def chase_input_node (nodes : List (String × Node)) (fuel : Nat)
    (inputs : List String) : Outcome Node :=
  match inputs with
  | [] => Outcome.panic "internal error: entered unreachable code: there should always be at least one input"
  | next_input :: rest =>
    match lookupNode nodes next_input with
    | none => Outcome.panic "index panic: key not found in nodes"
    | some node => chaseLoop nodes fuel node rest

/-- Normalization of a root input reference into a chain: a single
name becomes a one-element chain. -/
def inputChain : Input → List String
  | Input.str s => [s]
  | Input.list keys => keys

/-- The root-projection loop of FlakeLock deserialization: for each
declared root input, normalize it to a chain and chase it; a chase
error is wrapped with the offending input name as a serde custom
error, a panic propagates. -/
def projectRoots (nodes : List (String × Node)) (fuel : Nat) :
    List (String × Input) → Outcome (List (String × Node))
  | [] => Outcome.ok []
  | (root_name, root_input) :: rest =>
    match chase_input_node nodes fuel (inputChain root_input) with
    | Outcome.ok real_node =>
      match projectRoots nodes fuel rest with
      | Outcome.ok m => Outcome.ok ((root_name, real_node) :: m)
      | Outcome.err e => Outcome.err e
      | Outcome.panic m => Outcome.panic m
    | Outcome.err _ => Outcome.err (FlakeLockParseError.json ("failed to chase input " ++ root_name))
    | Outcome.panic m => Outcome.panic m

/-- FlakeLock of parse-flake-lock: node table, resolved root map,
version. -/
structure FlakeLock where
  nodes : List (String × Node)
  root : List (String × Node)
  version : Nat

/-- The tail of FlakeLockVisitor::visit_map once nodes, root and
version are deserialized: index the node table with the root name
(a panic when absent), require the Root variant (a typed error naming
the actual variant otherwise), then project every declared root input
through the resolver. -/
def resolveFlakeLock (nodes : List (String × Node)) (rootName : String)
    (version : Nat) (fuel : Nat) : Outcome FlakeLock :=
  match lookupNode nodes rootName with
  | none => Outcome.panic "index panic: key not found in nodes"
  | some root_node =>
    match root_node with
    | Node.root r =>
      match projectRoots nodes fuel r.inputs with
      | Outcome.ok root_nodes =>
        Outcome.ok { nodes := nodes, root := root_nodes, version := version }
      | Outcome.err e => Outcome.err e
      | Outcome.panic m => Outcome.panic m
    | other =>
      Outcome.err (FlakeLockParseError.json
        ("root node was not a Root node, but was a " ++ other.variant ++ " node"))

end PFL

namespace Checker

/-- Issue kind of issue.rs (untagged payloads inlined). -/
inductive IssueKind where
  | disallowed (reference : String) : IssueKind
  | outdated (num_days_old : Int) : IssueKind
  | non_upstream (owner : String) : IssueKind
  | violation : IssueKind
deriving DecidableEq, Repr

/-- IssueKind::is_disallowed. -/
def IssueKind.is_disallowed : IssueKind → Bool
  | IssueKind.disallowed _ => true
  | _ => false

/-- IssueKind::is_outdated. -/
def IssueKind.is_outdated : IssueKind → Bool
  | IssueKind.outdated _ => true
  | _ => false

/-- IssueKind::is_non_upstream. -/
def IssueKind.is_non_upstream : IssueKind → Bool
  | IssueKind.non_upstream _ => true
  | _ => false

/-- IssueKind::is_violation. -/
def IssueKind.is_violation : IssueKind → Bool
  | IssueKind.violation => true
  | _ => false

/-- Issue of issue.rs. -/
structure Issue where
  input : String
  kind : IssueKind
deriving DecidableEq, Repr

/-- FlakeCheckerError of error.rs (the constructors the core can
produce; each carries its message or payload as a string). -/
inductive FlakeCheckerError where
  | celExecution (msg : String) : FlakeCheckerError
  | celParse (msg : String) : FlakeCheckerError
  | nonBooleanCondition (typeName : String) : FlakeCheckerError
  | json (msg : String) : FlakeCheckerError
  | invalid (msg : String) : FlakeCheckerError
deriving DecidableEq, Repr

/-- The bundled ALLOWED_REFS constant of flake.rs. -/
def ALLOWED_REFS : List String :=
  ["nixos-22.11", "nixos-22.11-small", "nixos-23.05", "nixos-23.05-small",
   "nixos-unstable", "nixos-unstable-small", "nixpkgs-22.11-darwin",
   "nixpkgs-23.05-darwin", "nixpkgs-unstable"]

/-- MAX_DAYS of flake.rs. -/
def MAX_DAYS : Int := 30

/-- str::to_lowercase, embedded as a character-wise map (the inputs
compared in the owner rule are ASCII). -/
def lowercase (s : String) : String :=
  String.mk (s.data.map Char.toLower)

/-- FlakeCheckConfig of flake.rs. -/
structure FlakeCheckConfig where
  check_supported : Bool
  check_outdated : Bool
  check_owner : Bool
  fail_mode : Bool
  nixpkgs_keys : List String

/-- The Default impl for FlakeCheckConfig. -/
def FlakeCheckConfig.default : FlakeCheckConfig :=
  { check_supported := true, check_outdated := true, check_owner := true,
    fail_mode := false, nixpkgs_keys := ["nixpkgs"] }

namespace Flake

/-- Input enum of flake.rs (identical shape to the library one). -/
inductive Input where
  | str (s : String) : Input
  | list (names : List String) : Input

/-- RepoLocked of flake.rs. -/
structure RepoLocked where
  last_modified : Int
  nar_hash : String
  owner : String
  repo : String
  rev : String
  node_type : String

/-- RepoOriginal of flake.rs. -/
structure RepoOriginal where
  owner : String
  repo : String
  node_type : String
  git_ref : Option String

/-- RepoNode of flake.rs. -/
structure RepoNode where
  inputs : Option (List (String × Input))
  locked : RepoLocked
  original : RepoOriginal

/-- RootNode of flake.rs. -/
structure RootNode where
  inputs : List (String × Input)

/-- Node enum of flake.rs: Repo, Root, and the Fallthrough catch-all. -/
inductive Node where
  | repo (r : RepoNode) : Node
  | root (r : RootNode) : Node
  | fallthrough (v : Json) : Node

/-- Whether a node is the Repo variant (the selection test
written `if let Node::Repo(_) = node` in nixpkgs_deps). -/
def Node.isRepo : Node → Bool
  | Node.repo _ => true
  | _ => false

/-- FlakeLock::nixpkgs_deps of flake.rs: keep the resolved root
entries that are Repo nodes with a requested key; if any requested key
ends up with no kept dependency, fail with an Invalid error naming
every missing key, pluralizing the word key. -/
def nixpkgs_deps (root : List (String × Node)) (keys : List String) :
    Except FlakeCheckerError (List (String × Node)) :=
  let deps := root.filter (fun p => p.2.isRepo && keys.contains p.1)
  let missing := keys.filter (fun k => !(deps.any (fun p => p.1 == k)))
  if missing.isEmpty then Except.ok deps
  else Except.error (FlakeCheckerError.invalid
    ("no nixpkgs dependency found for specified "
      ++ (if missing.length > 1 then "keys" else "key")
      ++ ": " ++ String.intercalate ", " missing))

/-- The per-dependency body of check_flake_lock: the three fixed
rules, evaluated in order, each pushing at most one issue.  The
current wall-clock timestamp of Utc::now is passed in as now; the
day count is the chrono seconds-to-days conversion, integer division
truncating toward zero. -/
def check_dep (config : FlakeCheckConfig) (now : Int) (name : String)
    (dep : Node) : List Issue :=
  match dep with
  | Node.repo repo =>
    (if config.check_supported then
       match repo.original.git_ref with
       | some git_ref =>
         if ALLOWED_REFS.contains git_ref then []
         else [{ input := name, kind := IssueKind.disallowed git_ref }]
       | none => []
     else [])
    ++ (if config.check_outdated then
          (let diff := now - repo.locked.last_modified
           let num_days_old := Int.tdiv diff 86400
           if num_days_old > MAX_DAYS then
             [{ input := name, kind := IssueKind.outdated num_days_old }]
           else [])
        else [])
    ++ (if config.check_owner then
          (if lowercase repo.original.owner != "nixos" then
             [{ input := name, kind := IssueKind.non_upstream repo.original.owner }]
           else [])
        else [])
  | _ => []

/-- check_flake_lock of flake.rs: select the dependencies for the
configured keys, then run the three fixed rules over each in turn. -/
def check_flake_lock (root : List (String × Node))
    (config : FlakeCheckConfig) (now : Int) :
    Except FlakeCheckerError (List Issue) :=
  match nixpkgs_deps root config.nixpkgs_keys with
  | Except.ok deps => Except.ok (deps.flatMap (fun p => check_dep config now p.1 p.2))
  | Except.error e => Except.error e

end Flake

namespace Condition

/-- The evaluation context handed to the CEL interpreter: the four
bound variables of condition.rs. -/
structure CelContext where
  supportedRefs : List String
  gitRef : String
  numDaysOld : Int
  owner : String
deriving DecidableEq

/-- The shape of a CEL execution result that evaluate_condition
inspects: a boolean, or some other value identified by its type
name. -/
inductive CelValue where
  | bool (b : Bool) : CelValue
  | other (typeName : String) : CelValue
deriving DecidableEq

/-- The CEL collaborator at the boundary used by condition.rs:
Program::compile and Program::execute, abstract over the compiled
program representation. -/
structure CelEngine (P : Type) where
  compile : String → Except String P
  execute : P → CelContext → Except String CelValue

/-- Modelled from the spec: the num_days_old helper that condition.rs
imports from flake.rs is not under src (only its caller is); the spec
fixes daysOld as the integer-second difference divided by 86400 with
truncation toward zero, matching the inline computation in
check_flake_lock. -/
def num_days_old (now timestamp : Int) : Int :=
  Int.tdiv (now - timestamp) 86400

/-- Modelled from the spec: the free nixpkgs_deps function that
condition.rs imports from flake.rs is not under src (only its method
ancestor and its caller are); per the spec selection rule, keep the
resolved root entries with a requested key whose variant carries
checkable facts (repository or archive dependency), and fail with an
Invalid error naming every missing requested key, pluralized. -/
def nixpkgs_deps (root : List (String × PFL.Node)) (keys : List String) :
    Except FlakeCheckerError (List (String × PFL.Node)) :=
  let checkable : PFL.Node → Bool := fun n =>
    match n with
    | PFL.Node.repo _ => true
    | PFL.Node.tarball _ => true
    | _ => false
  let deps := root.filter (fun p => checkable p.2 && keys.contains p.1)
  let missing := keys.filter (fun k => !(deps.any (fun p => p.1 == k)))
  if missing.isEmpty then Except.ok deps
  else Except.error (FlakeCheckerError.invalid
    ("no nixpkgs dependency found for specified "
      ++ (if missing.length > 1 then "keys" else "key")
      ++ ": " ++ String.intercalate ", " missing))

/-- The fact extraction of condition.rs: the git ref, locked
timestamp and owner a dependency exposes (absent facts are None). -/
def depFacts : PFL.Node → Option String × Option Int × Option String
  | PFL.Node.repo repo =>
    (repo.original.git_ref, some repo.locked.last_modified, some repo.original.owner)
  | PFL.Node.tarball tarball => (none, tarball.locked.last_modified, none)
  | _ => (none, none, none)

/-- value_or_empty_string of condition.rs. -/
def value_or_empty_string (value : Option String) : String :=
  value.getD ""

/-- value_or_zero of condition.rs. -/
def value_or_zero (value : Option Int) : Int :=
  value.getD 0

/-- add_cel_variables of condition.rs: bind the per-dependency
variables (missing facts become empty string or zero) next to the
run-wide supportedRefs binding. -/
def add_cel_variables (supportedRefs : List String) (now : Int)
    (git_ref : Option String) (last_modified : Option Int)
    (owner : Option String) : CelContext :=
  { supportedRefs := supportedRefs,
    gitRef := value_or_empty_string git_ref,
    numDaysOld := value_or_zero (last_modified.map (num_days_old now)),
    owner := value_or_empty_string owner }

/-- The context built for one dependency node. -/
def dep_context (supportedRefs : List String) (now : Int)
    (node : PFL.Node) : CelContext :=
  add_cel_variables supportedRefs now (depFacts node).1 (depFacts node).2.1
    (depFacts node).2.2

/-- One iteration of the evaluate_condition loop: compile the
expression (a parse failure is fatal), execute it against the
dependency's context, and classify the result: false yields a
violation issue, true yields nothing, any non-boolean result is a
fatal NonBooleanCondition error carrying the result's type name. -/
def condition_step {P : Type} (engine : CelEngine P) (condition : String)
    (supportedRefs : List String) (now : Int) (name : String)
    (node : PFL.Node) : Except FlakeCheckerError (Option Issue) :=
  match engine.compile condition with
  | Except.error e => Except.error (FlakeCheckerError.celParse e)
  | Except.ok prog =>
    match engine.execute prog (dep_context supportedRefs now node) with
    | Except.error e => Except.error (FlakeCheckerError.celExecution e)
    | Except.ok (CelValue.bool false) =>
      Except.ok (some { input := name, kind := IssueKind.violation })
    | Except.ok (CelValue.bool true) => Except.ok none
    | Except.ok (CelValue.other t) =>
      Except.error (FlakeCheckerError.nonBooleanCondition t)

/-- The evaluate_condition loop over the selected dependencies,
collecting issues in order; any step error aborts the run. -/
def run_conditions {P : Type} (engine : CelEngine P) (condition : String)
    (supportedRefs : List String) (now : Int) :
    List (String × PFL.Node) → Except FlakeCheckerError (List Issue)
  | [] => Except.ok []
  | (name, node) :: rest =>
    match condition_step engine condition supportedRefs now name node with
    | Except.error e => Except.error e
    | Except.ok o =>
      match run_conditions engine condition supportedRefs now rest with
      | Except.ok issues => Except.ok (o.toList ++ issues)
      | Except.error e => Except.error e

/-- evaluate_condition of condition.rs: select the dependencies for
the requested keys, then run the compiled expression against each. -/
def evaluate_condition {P : Type} (engine : CelEngine P)
    (root : List (String × PFL.Node)) (nixpkgs_keys : List String)
    (condition : String) (supported_refs : List String) (now : Int) :
    Except FlakeCheckerError (List Issue) :=
  match nixpkgs_deps root nixpkgs_keys with
  | Except.error e => Except.error e
  | Except.ok deps => run_conditions engine condition supported_refs now deps

end Condition

end Checker

namespace PFL

/-- A concrete repository node used in witnesses and counterexamples. -/
def exRepoNode : RepoNode :=
  { flake := none, inputs := none,
    locked := { last_modified := 0, nar_hash := "sha256-aaa", owner := "NixOS",
                repo := "nixpkgs", rev := "abc123", node_type := "github" },
    original := { owner := "NixOS", repo := "nixpkgs", git_ref := some "nixos-unstable",
                  node_type := "github" } }

/-- A concrete two-node lock document: a Root declaring one input that
points at a repository node. -/
def exNodes : List (String × Node) :=
  [("root", Node.root { inputs := [("nixpkgs", Input.str "nixpkgs-node")] }),
   ("nixpkgs-node", Node.repo exRepoNode)]

/-- A concrete table where node a has an inputs mapping that lacks the
hop name y. -/
def exHopNodes : List (String × Node) :=
  [("a", Node.repo { exRepoNode with inputs := some [("x", Input.str "b")] }),
   ("b", Node.repo exRepoNode)]

end PFL

namespace Checker

/-- A concrete Repo dependency with a disallowed git ref and a
non-upstream owner, as in the flake.dirty.0.lock test fixture. -/
def dirtyRepo : Flake.RepoNode :=
  { inputs := none,
    locked := { last_modified := 1700000000, nar_hash := "sha256-bbb",
                owner := "bitcoin-miner-org", repo := "nixpkgs", rev := "deadbeef",
                node_type := "github" },
    original := { owner := "bitcoin-miner-org", repo := "nixpkgs", node_type := "github",
                  git_ref := some "this-should-fail" } }

/-- A concrete Repo dependency with an allowed ref and the upstream
owner, locked at timestamp zero. -/
def cleanRepo : Flake.RepoNode :=
  { inputs := none,
    locked := { last_modified := 0, nar_hash := "sha256-ccc", owner := "NixOS",
                repo := "nixpkgs", rev := "abc123", node_type := "github" },
    original := { owner := "NixOS", repo := "nixpkgs", node_type := "github",
                  git_ref := some "nixos-unstable" } }

namespace Condition

/-- An engine whose compilation always fails: a syntactically invalid
expression. -/
def failParseEngine : CelEngine Unit :=
  { compile := fun _ => Except.error "parse error",
    execute := fun _ _ => Except.ok (CelValue.bool true) }

/-- An engine standing for the compiled expression comparing the owner
variable to the upstream owner string. -/
def ownerEngine : CelEngine Unit :=
  { compile := fun _ => Except.ok (),
    execute := fun _ ctx => Except.ok (CelValue.bool (ctx.owner == "NixOS")) }

/-- A repository dependency whose owner is not the upstream owner. -/
def otherOwnerDep : PFL.Node :=
  PFL.Node.repo
    { flake := none, inputs := none,
      locked := { last_modified := 0, nar_hash := "sha256-ddd", owner := "other",
                  repo := "nixpkgs", rev := "abc123", node_type := "github" },
      original := { owner := "other", repo := "nixpkgs", git_ref := some "nixos-unstable",
                    node_type := "github" } }

end Condition

end Checker

section Claims

open PFL

/-- Resolved root keys are exactly the projected input keys, in
order. -/
theorem projectRoots_ok_keys (nodes : List (String × Node)) (fuel : Nat) :
    ∀ (inputs : List (String × Input)) (m : List (String × Node)),
      projectRoots nodes fuel inputs = Outcome.ok m →
      m.map Prod.fst = inputs.map Prod.fst := by
  intro inputs
  induction inputs with
  | nil =>
    intro m h
    simp only [projectRoots] at h
    cases h
    rfl
  | cons p rest ih =>
    intro m h
    obtain ⟨root_name, root_input⟩ := p
    simp only [projectRoots] at h
    split at h
    · split at h
      · rename_i m2 hrec
        cases h
        simpa using ih m2 hrec
      · cases h
      · cases h
    · cases h
    · cases h

/-- C1: for every document that resolves successfully, the resolved
root map has exactly the names declared in the Root node's inputs
mapping as keys: every declared name and no other. -/
theorem c1_resolvedRoots_exactly_declared_names
    (nodes : List (String × Node)) (rootName : String) (version fuel : Nat)
    (fl : FlakeLock)
    (h : resolveFlakeLock nodes rootName version fuel = Outcome.ok fl) :
    ∃ r, lookupNode nodes rootName = some (Node.root r) ∧
      fl.root.map Prod.fst = r.inputs.map Prod.fst := by
  unfold resolveFlakeLock at h
  split at h
  · cases h
  next root_node hl =>
    split at h
    next r =>
      split at h
      next root_nodes hp =>
        cases h
        exact ⟨r, hl, projectRoots_ok_keys nodes fuel r.inputs root_nodes hp⟩
      · cases h
      · cases h
    · cases h

/-- C1 witness: the concrete two-node document resolves and its root
map keys are exactly the declared input keys. -/
theorem c1_resolvedRoots_exactly_declared_names_witness :
    ∃ r, lookupNode exNodes "root" = some (Node.root r) ∧
      ([("nixpkgs", Node.repo exRepoNode)] : List (String × Node)).map Prod.fst =
        r.inputs.map Prod.fst :=
  c1_resolvedRoots_exactly_declared_names exNodes "root" 7 5
    { nodes := exNodes, root := [("nixpkgs", Node.repo exRepoNode)], version := 7 } rfl

/-- C4 counterexample: a chain whose name is absent from the node
table makes resolution panic (the HashMap index), not return a typed
MissingNode-style error; no such error constructor exists. -/
theorem c4_missing_node_counterexample :
    chase_input_node exNodes 5 ["absent"] =
      Outcome.panic "index panic: key not found in nodes" := rfl

/-- C4 amended: when the first name of a chain is absent from the
node table, resolution panics via the HashMap index operation instead
of returning a typed error. -/
theorem c4_absent_chain_start_panics
    (nodes : List (String × Node)) (fuel : Nat) (name : String)
    (rest : List String) (h : lookupNode nodes name = none) :
    chase_input_node nodes fuel (name :: rest) =
      Outcome.panic "index panic: key not found in nodes" := by
  simp [chase_input_node, h]

/-- C4 witness: chasing a name in the empty node table panics. -/
theorem c4_absent_chain_start_panics_witness :
    chase_input_node [] 3 ["nixpkgs"] =
      Outcome.panic "index panic: key not found in nodes" :=
  c4_absent_chain_start_panics [] 3 "nixpkgs" [] rfl

/-- C5 counterexample: parsing a document whose root name is absent
from the node table panics (HashMap index) instead of returning a
typed error. -/
theorem c5_root_lookup_panics_counterexample :
    resolveFlakeLock [("a", Node.repo exRepoNode)] "root" 7 5 =
      Outcome.panic "index panic: key not found in nodes" := rfl

/-- C5 amended: the core panics rather than returning typed errors in
three cases: an empty chain hits the unreachable assertion, a hop
name absent from the current inputs mapping hits the map index, and
(third conjunct) a schema violation such as a non-Root root node is,
by contrast, reported as a typed error. -/
theorem c5_panic_and_typed_error_cases :
    chase_input_node exNodes 5 [] =
        Outcome.panic "internal error: entered unreachable code: there should always be at least one input" ∧
      chase_input_node exHopNodes 5 ["a", "y"] =
        Outcome.panic "index panic: key not found in node inputs" ∧
      resolveFlakeLock [("root", Node.repo exRepoNode)] "root" 7 5 =
        Outcome.err (FlakeLockParseError.json
          "root node was not a Root node, but was a Repo node") :=
  ⟨rfl, rfl, rfl⟩

/-- C10: a single-name reference and the one-element chain holding
that name resolve alike: both normalize to the same chain, and
chasing the one-element chain is exactly the direct node-table index
used for a single-name hop. -/
theorem c10_single_name_chain_invariance
    (nodes : List (String × Node)) (fuel : Nat) (s : String) :
    chase_input_node nodes fuel (inputChain (Input.str s)) =
        chase_input_node nodes fuel (inputChain (Input.list [s])) ∧
      chase_input_node nodes fuel [s] = indexNode nodes s := by
  refine ⟨rfl, ?_⟩
  cases h : lookupNode nodes s <;>
    simp [chase_input_node, indexNode, chaseLoop, h]

open Checker

/-- Pointwise-equal predicates give equal any-scans. -/
theorem any_congr_mem {α : Type} {p q : α → Bool} :
    ∀ {l : List α}, (∀ x ∈ l, p x = q x) → l.any p = l.any q := by
  intro l
  induction l with
  | nil => intro _; rfl
  | cons a t ih =>
    intro h
    simp only [List.any_cons, h a (by simp), ih (fun x hx => h x (by simp [hx]))]

/-- C2 counterexample: a resolved root entry under a target key whose
variant is not Repo is not silently skipped; the evaluator fails with
an Invalid error naming the key. -/
theorem c2_non_repo_target_fails_counterexample :
    Flake.check_flake_lock [("nixpkgs", Flake.Node.fallthrough Json.null)]
        FlakeCheckConfig.default 0 =
      Except.error (FlakeCheckerError.invalid
        "no nixpkgs dependency found for specified key: nixpkgs") := rfl

/-- C2 amended: a non-Repo entry is never selected (so it contributes
no issues when selection succeeds), but a target key whose only
entries are non-Repo is counted missing and makes selection fail with
an Invalid error. -/
theorem c2_non_repo_excluded_then_missing :
    (∀ (root : List (String × Flake.Node)) (keys : List String)
        (deps : List (String × Flake.Node)),
        Flake.nixpkgs_deps root keys = Except.ok deps →
        ∀ p ∈ deps, p.2.isRepo = true ∧ keys.contains p.1 = true) ∧
    (∀ (root : List (String × Flake.Node)) (keys : List String) (k : String),
        k ∈ keys → (∀ n, (k, n) ∈ root → Flake.Node.isRepo n = false) →
        ∃ msg, Flake.nixpkgs_deps root keys =
          Except.error (FlakeCheckerError.invalid msg)) := by
  constructor
  · intro root keys deps h p hp
    simp only [Flake.nixpkgs_deps] at h
    split at h
    · cases h
      simp only [List.mem_filter, Bool.and_eq_true] at hp
      exact ⟨hp.2.1, hp.2.2⟩
    · cases h
  · intro root keys k hk hnone
    have hdep :
        ((root.filter (fun p => p.2.isRepo && keys.contains p.1)).any
          (fun p => p.1 == k)) = false := by
      by_contra hc
      rw [Bool.not_eq_false, List.any_eq_true] at hc
      obtain ⟨⟨p1, p2⟩, hpmem, hpk⟩ := hc
      rw [List.mem_filter] at hpmem
      have hk1 : p1 = k := by simpa using hpk
      subst hk1
      have hfalse := hnone p2 hpmem.1
      have htrue := hpmem.2
      rw [Bool.and_eq_true] at htrue
      rw [htrue.1] at hfalse
      cases hfalse
    have hmem : k ∈ keys.filter (fun k2 =>
        !((root.filter (fun p => p.2.isRepo && keys.contains p.1)).any
          (fun p => p.1 == k2))) :=
      List.mem_filter.mpr ⟨hk, by rw [hdep]; rfl⟩
    have hne : ¬((keys.filter (fun k2 =>
        !((root.filter (fun p => p.2.isRepo && keys.contains p.1)).any
          (fun p => p.1 == k2)))).isEmpty = true) := by
      rw [List.isEmpty_iff]
      exact List.ne_nil_of_mem hmem
    exact ⟨_, by simp only [Flake.nixpkgs_deps]; rw [if_neg hne]⟩

/-- C2 witness: a Repo entry under the target key is selected (and
every selected entry is a Repo under a target key), while the
document whose only nixpkgs entry is a Fallthrough node makes
selection fail. -/
theorem c2_non_repo_excluded_then_missing_witness :
    (∀ p ∈ ([("nixpkgs", Flake.Node.repo dirtyRepo)] : List (String × Flake.Node)),
        p.2.isRepo = true ∧ (["nixpkgs"] : List String).contains p.1 = true) ∧
    ∃ msg, Flake.nixpkgs_deps [("nixpkgs", Flake.Node.fallthrough Json.null)] ["nixpkgs"] =
      Except.error (FlakeCheckerError.invalid msg) := by
  constructor
  · exact c2_non_repo_excluded_then_missing.1
      [("nixpkgs", Flake.Node.repo dirtyRepo)] ["nixpkgs"]
      [("nixpkgs", Flake.Node.repo dirtyRepo)] rfl
  · refine c2_non_repo_excluded_then_missing.2
      [("nixpkgs", Flake.Node.fallthrough Json.null)] ["nixpkgs"] "nixpkgs"
      (by simp) ?_
    intro n hn
    rw [List.mem_singleton] at hn
    injection hn with h1 h2
    rw [h2]
    rfl

/-- C3: whenever at least one target key has no Repo entry in the
resolved root map, selection fails with an Invalid error whose
message lists every missing key, joined by commas, with the word key
pluralized exactly when more than one key is missing. -/
theorem c3_missing_keys_listed_pluralized
    (root : List (String × Flake.Node)) (keys : List String)
    (h : keys.filter (fun k => !(root.any (fun p => p.1 == k && p.2.isRepo))) ≠ []) :
    Flake.nixpkgs_deps root keys = Except.error (FlakeCheckerError.invalid
      ("no nixpkgs dependency found for specified "
        ++ (if (keys.filter (fun k =>
                !(root.any (fun p => p.1 == k && p.2.isRepo)))).length > 1
            then "keys" else "key")
        ++ ": " ++ String.intercalate ", "
              (keys.filter (fun k => !(root.any (fun p => p.1 == k && p.2.isRepo)))))) := by
  have hfilters :
      keys.filter (fun k =>
          !((root.filter (fun p => p.2.isRepo && keys.contains p.1)).any
            (fun p => p.1 == k)))
        = keys.filter (fun k => !(root.any (fun p => p.1 == k && p.2.isRepo))) := by
    apply List.filter_congr
    intro k hk
    have hcont : keys.contains k = true := List.elem_iff.mpr hk
    congr 1
    rw [List.any_filter]
    apply any_congr_mem
    intro p _
    by_cases hpk : p.1 = k
    · rw [hpk]
      simp only [hcont, beq_self_eq_true, Bool.and_true, Bool.true_and]
    · have hbeq : (p.1 == k) = false := beq_eq_false_iff_ne.mpr hpk
      simp [hbeq]
  simp only [Flake.nixpkgs_deps]
  rw [hfilters, if_neg]
  rw [List.isEmpty_iff]
  exact h

/-- C3 witness: with two missing keys the message is pluralized and
lists both, comma-separated. -/
theorem c3_missing_keys_listed_pluralized_witness :
    Flake.nixpkgs_deps ([] : List (String × Flake.Node)) ["foo", "bar"] =
      Except.error (FlakeCheckerError.invalid
        "no nixpkgs dependency found for specified keys: foo, bar") :=
  c3_missing_keys_listed_pluralized [] ["foo", "bar"] (by decide)

/-- C6 counterexample: a dependency locked 2592001 seconds ago is
older than now minus 30 days of seconds, yet the evaluator emits no
issue at all, because the truncated day count is exactly 30 and the
rule requires strictly more than 30. -/
theorem c6_threshold_counterexample :
    cleanRepo.locked.last_modified < 2592001 - MAX_DAYS * 86400 ∧
      Flake.check_flake_lock [("nixpkgs", Flake.Node.repo cleanRepo)]
          FlakeCheckConfig.default 2592001 = Except.ok [] :=
  ⟨by decide, rfl⟩

/-- C6 amended: with the outdated check enabled, an Outdated issue is
emitted exactly when the truncated integer day difference strictly
exceeds MAX_DAYS, and its day count is that truncated difference;
otherwise no Outdated issue is emitted. -/
theorem c6_outdated_iff_day_threshold_exceeded
    (config : FlakeCheckConfig) (now : Int) (name : String)
    (repo : Flake.RepoNode) :
    (Flake.check_dep config now name (Flake.Node.repo repo)).filter
        (fun i => i.kind.is_outdated)
      = (if config.check_outdated = true ∧
            MAX_DAYS < Int.tdiv (now - repo.locked.last_modified) 86400
         then [{ input := name,
                 kind := IssueKind.outdated
                   (Int.tdiv (now - repo.locked.last_modified) 86400) }]
         else []) := by
  simp only [Flake.check_dep, List.filter_append]
  repeat' split
  all_goals simp_all [IssueKind.is_outdated, List.filter]

/-- C7: the three fixed rules are independent: per dependency at most
three issues arise, the issues each rule contributes do not depend on
the other rules' switches, and on the concrete dependency with a
disallowed ref, a non-upstream owner and a fresh timestamp the
evaluator yields exactly the Disallowed and NonUpstream issues and no
Outdated issue. -/
theorem c7_rules_independent_and_example :
    (∀ (config : FlakeCheckConfig) (now : Int) (name : String)
        (dep : Flake.Node), (Flake.check_dep config now name dep).length ≤ 3) ∧
    (∀ (config : FlakeCheckConfig) (now : Int) (name : String)
        (dep : Flake.Node) (b1 b2 : Bool),
        (Flake.check_dep config now name dep).filter (fun i => i.kind.is_disallowed)
          = (Flake.check_dep
              { config with check_outdated := b1, check_owner := b2 }
              now name dep).filter (fun i => i.kind.is_disallowed)) ∧
    Flake.check_flake_lock [("nixpkgs", Flake.Node.repo dirtyRepo)]
        FlakeCheckConfig.default 1700000000 =
      Except.ok [{ input := "nixpkgs", kind := IssueKind.disallowed "this-should-fail" },
                 { input := "nixpkgs", kind := IssueKind.non_upstream "bitcoin-miner-org" }] := by
  refine ⟨?_, ?_, rfl⟩
  · intro config now name dep
    cases dep with
    | repo repo =>
      simp only [Flake.check_dep, List.length_append]
      repeat' split
      all_goals simp
    | root r => simp [Flake.check_dep]
    | fallthrough v => simp [Flake.check_dep]
  · intro config now name dep b1 b2
    cases dep with
    | repo repo =>
      simp only [Flake.check_dep, List.filter_append]
      repeat' split
      all_goals simp_all [IssueKind.is_disallowed, List.filter]
    | root r => simp [Flake.check_dep]
    | fallthrough v => simp [Flake.check_dep]

/-- C8 counterexample: with an expression that fails to compile but a
key list selecting zero dependencies, the run returns an empty issue
list instead of a compile error: the expression is only compiled
inside the per-dependency loop. -/
theorem c8_zero_deps_no_compile_error_counterexample :
    Condition.evaluate_condition Condition.failParseEngine [] [] "(" [] 0 =
      Except.ok [] := rfl

/-- C8 amended: the expression is compiled per selected dependency: a
compile error aborts the run whenever at least one dependency is
selected, while a run that selects zero dependencies returns an empty
issue list without the compilation result ever being consulted. -/
theorem c8_compile_error_behavior :
    (∀ (P : Type) (engine : Condition.CelEngine P) (cond : String)
        (refs : List String) (now : Int) (name : String) (node : PFL.Node)
        (rest : List (String × PFL.Node)) (e : String),
        engine.compile cond = Except.error e →
        Condition.run_conditions engine cond refs now ((name, node) :: rest) =
          Except.error (FlakeCheckerError.celParse e)) ∧
    (∀ (P : Type) (engine : Condition.CelEngine P)
        (root : List (String × PFL.Node)) (cond : String)
        (refs : List String) (now : Int),
        Condition.evaluate_condition engine root [] cond refs now = Except.ok []) := by
  constructor
  · intro P engine cond refs now name node rest e h
    simp [Condition.run_conditions, Condition.condition_step, h]
  · intro P engine root cond refs now
    simp [Condition.evaluate_condition, Condition.nixpkgs_deps,
      List.contains_nil, Condition.run_conditions]

/-- C8 witness: an engine whose compilation fails aborts a one-dependency
run with the compile error. -/
theorem c8_compile_error_behavior_witness :
    Condition.run_conditions Condition.failParseEngine "(" [] 0
        [("nixpkgs", Condition.otherOwnerDep)] =
      Except.error (FlakeCheckerError.celParse "parse error") :=
  c8_compile_error_behavior.1 Unit Condition.failParseEngine "(" [] 0 "nixpkgs"
    Condition.otherOwnerDep [] "parse error" rfl

/-- C9: once the expression compiles, each selected dependency's
result must be a boolean: false contributes exactly one violation
issue tagged with the dependency's name, true contributes nothing,
and any non-boolean result aborts the whole run with a
NonBooleanCondition error carrying the result's type name. -/
theorem c9_boolean_condition_contract {P : Type}
    (engine : Condition.CelEngine P) (cond : String) (refs : List String)
    (now : Int) (name : String) (node : PFL.Node)
    (rest : List (String × PFL.Node)) (p : P)
    (hc : engine.compile cond = Except.ok p) :
    (engine.execute p (Condition.dep_context refs now node) =
        Except.ok (Condition.CelValue.bool false) →
      Condition.run_conditions engine cond refs now ((name, node) :: rest) =
        (Condition.run_conditions engine cond refs now rest).map
          (fun issues => { input := name, kind := IssueKind.violation } :: issues)) ∧
    (engine.execute p (Condition.dep_context refs now node) =
        Except.ok (Condition.CelValue.bool true) →
      Condition.run_conditions engine cond refs now ((name, node) :: rest) =
        Condition.run_conditions engine cond refs now rest) ∧
    (∀ t, engine.execute p (Condition.dep_context refs now node) =
        Except.ok (Condition.CelValue.other t) →
      Condition.run_conditions engine cond refs now ((name, node) :: rest) =
        Except.error (FlakeCheckerError.nonBooleanCondition t)) := by
  refine ⟨?_, ?_, ?_⟩
  · intro hx
    simp only [Condition.run_conditions, Condition.condition_step, hc, hx]
    cases hr : Condition.run_conditions engine cond refs now rest <;>
      simp [hr, Except.map]
  · intro hx
    simp only [Condition.run_conditions, Condition.condition_step, hc, hx]
    cases hr : Condition.run_conditions engine cond refs now rest <;> simp [hr]
  · intro t hx
    simp [Condition.run_conditions, Condition.condition_step, hc, hx]

/-- C9 witness: the owner-comparison expression against a dependency
whose owner differs yields exactly one violation issue tagged with
the dependency's name. -/
theorem c9_boolean_condition_contract_witness :
    Condition.run_conditions Condition.ownerEngine "ownerIsUpstream" [] 0
        [("nixpkgs", Condition.otherOwnerDep)] =
      Except.ok [{ input := "nixpkgs", kind := IssueKind.violation }] := by
  have h := (c9_boolean_condition_contract Condition.ownerEngine
    "ownerIsUpstream" [] 0 "nixpkgs" Condition.otherOwnerDep [] () rfl).1 rfl
  simpa [Condition.run_conditions, Except.map] using h

end Claims

end FlakeChecker
